import Mathlib

/-!
Verification of the guided-tour (tutorial walkthrough) engine of the
messiah-dining-calculator-react repository, as implemented by the
`Tutorial` React component.

The component is shallowly embedded as pure Lean functions:
- the step catalog is a `List Step` (the static `tutorialSteps` file is
  external to the component; all results are parametric in the catalog);
- the element registry `tutorialRefs.value` is modelled by a presence map
  `refs : Nat → Bool` together with a per-index zIndex map
  `z : Nat → String` recording the `style.zIndex` of each registered
  handle (only meaningful at indices where `refs` is `true`);
- React's post-render effect pass is made explicit: every event handler
  is composed with the effects whose dependencies its state updates
  change (the emphasis/positioning effect depends on `[step, show, refs]`,
  the hide-reset effect on `[show, step]`; the details toggle changes
  neither, so no effect runs after it).
-/

/-- One tutorial step, mirroring the entries of `tutorialSteps`:
`{ title, description, position, action? }`.  `position` is the TypeScript
string union `'start' | 'center' | 'end'` and is kept as a `String`;
`action` is opaque JSX content, modelled as an opaque `Option Unit`. -/
structure Step where
  title : String
  description : String
  position : String
  action : Option Unit := none
deriving DecidableEq

/-- JavaScript indexing `tutorialSteps[step]` (the component always indexes
within bounds; theorems carry the bound where it matters). -/
def getStep (steps : List Step) (i : Nat) : Step :=
  steps.getD i { title := "", description := "", position := "" }

/-- The validation table of `isStepComplete`:
`[{ title: 'Meal Plan Info', check: () => areDetailsEntered }]`,
with each rule's `check()` already evaluated against the externally
supplied boolean. -/
def validationRules (areDetailsEntered : Bool) : List (String × Bool) :=
  [("Meal Plan Info", areDetailsEntered)]

/-- `isStepComplete` from the component: find a validation rule whose title
equals the active step's title; `return !validation || validation.check()`. -/
def isStepComplete (steps : List Step) (i : Nat) (areDetailsEntered : Bool) : Bool :=
  match (validationRules areDetailsEntered).find?
      (fun v => v.1 == (getStep steps i).title) with
  | none => true
  | some v => v.2

/-- The `disabled` attribute of the Next/Finish button: `!isStepComplete`. -/
def nextFinishDisabled (steps : List Step) (i : Nat) (areDetailsEntered : Bool) : Bool :=
  !isStepComplete steps i areDetailsEntered

/-- The inline `order` value computed by the positioning effect:
`1 + step - tutorialSteps.slice(0, step).reduce((p, c) => p + (c.position === 'center' ? 1 : 0), 0)`. -/
def tooltipOrder (steps : List Step) (i : Nat) : Int :=
  1 + (i : Int) -
    (steps.take i).foldl (fun p c => p + (if c.position == "center" then 1 else 0)) 0

/-- Which element a `scrollIntoView` call targets. -/
inductive ScrollTarget where
  | handle
  | tooltip
deriving DecidableEq

/-- A fire-and-forget `scrollIntoView` command: the targeted element and the
`block` alignment option passed to it. -/
structure ScrollCommand where
  target : ScrollTarget
  block : String
deriving DecidableEq

/-- The tooltip styling and scrolling performed by the positioning effect for
the active step.  `order = none` means the effect did not assign
`style.order` on this run (the `center` branch leaves it untouched). -/
structure TooltipLayout where
  positionStyle : String
  transform : String
  order : Option String
  scroll : ScrollCommand
deriving DecidableEq

/-- The positioning part of the `[step, show, refs]` effect
(`handlePresent` is whether `tutorialRefs.value[step]` is non-null):
if the position is not `'center'`, the tooltip is laid out inline
(`position: static`, the computed `order`) and
`(div !== null && position === 'end' ? div : tooltip).scrollIntoView({ block: position })`;
otherwise the tooltip is an absolute centered overlay scrolled with
`block: 'center'`. -/
def layoutEffect (steps : List Step) (i : Nat) (handlePresent : Bool) : TooltipLayout :=
  if (getStep steps i).position != "center" then
    { positionStyle := "static"
      transform := ""
      order := some (toString (tooltipOrder steps i))
      scroll :=
        { target :=
            if handlePresent && (getStep steps i).position == "end" then
              ScrollTarget.handle
            else
              ScrollTarget.tooltip
          block := (getStep steps i).position } }
  else
    { positionStyle := "absolute"
      transform := "translate(-50%, -50%)"
      order := none
      scroll := { target := ScrollTarget.tooltip, block := "center" } }

/-- The state of the mounted component together with the DOM state it
mutates.  `visible` is the `show` prop (owned by the host and set through
`setShow`), `step` the `step` prop, `showDetails` the local details toggle,
`isNewUser` the current value of the persistent flag, and `z` the
`style.zIndex` of each registered handle. -/
structure TutorialState where
  visible : Bool
  step : Nat
  showDetails : Bool
  isNewUser : Bool
  z : Nat → String

/-- `resetPrevDiv(i)`: `const div = tutorialRefs.value[i]; if (div !== null) div.style.zIndex = '0'`. -/
def resetPrevDiv (refs : Nat → Bool) (i : Nat) (z : Nat → String) : Nat → String :=
  if refs i then Function.update z i "0" else z

/-- The emphasis half of the `[step, show, refs]` effect:
`if (tutorialRefs.value[step] !== null) { div = tutorialRefs.value[step]; div.style.zIndex = '50' }`. -/
def applyEmphasis (refs : Nat → Bool) (i : Nat) (z : Nat → String) : Nat → String :=
  if refs i then Function.update z i "50" else z

/-- The post-render effect pass run whenever `step` or `show` changed:
first the emphasis/positioning effect elevates the active step's handle,
then the second effect (`if (!show) resetPrevDiv(step)`) restores the
baseline when the tour is hidden. -/
def runEffects (refs : Nat → Bool) (s : TutorialState) : TutorialState :=
  if s.visible then
    { s with z := applyEmphasis refs s.step s.z }
  else
    { s with z := resetPrevDiv refs s.step (applyEmphasis refs s.step s.z) }

/-- The Previous button's `onClick`: `resetPrevDiv(step); if (step !== 0) setStep(step - 1)`.
When `step` changes, the effects re-run; at step 0 no state changes, so no
re-render and no effect pass happens. -/
def clickPrevious (refs : Nat → Bool) (s : TutorialState) : TutorialState :=
  let s1 := { s with z := resetPrevDiv refs s.step s.z }
  if s.step ≠ 0 then runEffects refs { s1 with step := s.step - 1 } else s1

/-- The Next/Finish button's `onClick`:
`resetPrevDiv(step); step + 1 === tutorialSteps.length ? setShow(false) : setStep(step + 1)`,
followed by the effect pass (either `show` or `step` changed). -/
def clickNext (steps : List Step) (refs : Nat → Bool) (s : TutorialState) : TutorialState :=
  let s1 := { s with z := resetPrevDiv refs s.step s.z }
  if s.step + 1 = steps.length then
    runEffects refs { s1 with visible := false }
  else
    runEffects refs { s1 with step := s.step + 1 }

/-- The close (X) button: `setShow(false)`, followed by the effect pass. -/
def clickClose (refs : Nat → Bool) (s : TutorialState) : TutorialState :=
  runEffects refs { s with visible := false }

/-- The host re-showing the tour (`setShow(true)` from outside), followed by
the effect pass. -/
def showTour (refs : Nat → Bool) (s : TutorialState) : TutorialState :=
  runEffects refs { s with visible := true }

/-- The details toggle: `setShowDetails(!showDetails)`.  No effect depends on
`showDetails`, so no effect pass follows. -/
def toggleDetails (s : TutorialState) : TutorialState :=
  { s with showDetails := !s.showDetails }

/-- Modelled from the spec: the read side of `usePersistentState` (the hook's
source is not under src/).  The durable store maps keys to an optional
stored boolean; `get(key)` returns the stored value, or the supplied
default when the key was never written — the component reads key
`'isNewUser'` with default `true`. -/
def usePersistentStateRead (store : String → Option Bool) (key : String) (dflt : Bool) : Bool :=
  (store key).getD dflt

/-- Mounting the component with `show` prop `visible0` and persistent-flag
value `newUser`: all effects run once on mount (auto-show effect first,
then the positioning/emphasis ones); if the auto-show effect fired
(`if (isNewUser) { setShow(true); setIsNewUser(false) }`), the batched
state updates cause a re-render after which the effect pass runs again.
Registered handles start at the baseline zIndex `"0"`. -/
def mountTutorial (refs : Nat → Bool) (visible0 newUser : Bool) : TutorialState :=
  let s1 := runEffects refs
    { visible := visible0, step := 0, showDetails := false, isNewUser := newUser,
      z := fun _ => "0" }
  if newUser then runEffects refs { s1 with visible := true, isNewUser := false } else s1

/-- The discrete UI events that can hit a mounted component. -/
inductive TourEvent where
  | next
  | previous
  | close
  | reopen
  | toggle

/-- Dispatch of one UI event, including its effect pass. -/
def stepEvent (steps : List Step) (refs : Nat → Bool) (e : TourEvent)
    (s : TutorialState) : TutorialState :=
  match e with
  | TourEvent.next => clickNext steps refs s
  | TourEvent.previous => clickPrevious refs s
  | TourEvent.close => clickClose refs s
  | TourEvent.reopen => showTour refs s
  | TourEvent.toggle => toggleDetails s

/-- States reachable by mounting the component and then dispatching any
sequence of UI events (the registry is fixed for the run). -/
inductive Reachable (steps : List Step) (refs : Nat → Bool) : TutorialState → Prop where
  | mounted (visible0 newUser : Bool) :
      Reachable steps refs (mountTutorial refs visible0 newUser)
  | dispatch {s : TutorialState} (e : TourEvent) :
      Reachable steps refs s → Reachable steps refs (stepEvent steps refs e s)

/-- A concrete four-step catalog with positions `[center, start, end, start]`
(the shape used by the spec's worked example). -/
def demoCatalog : List Step :=
  [{ title := "s0", description := "d0", position := "center" },
   { title := "s1", description := "d1", position := "start" },
   { title := "s2", description := "d2", position := "end" },
   { title := "s3", description := "d3", position := "start" }]

/-- A concrete registry with a handle registered for step 0 only. -/
def cexRefs : Nat → Bool := fun j => j == 0

/-- A concrete registry with no handles registered. -/
def noRefs : Nat → Bool := fun _ => false

/-- The all-baseline zIndex map. -/
def baselineZ : Nat → String := fun _ => "0"

/-- A store in which the key `'isNewUser'` was never written. -/
def emptyStore : String → Option Bool := fun _ => none

lemma runEffects_visible (refs : Nat → Bool) (s : TutorialState) :
    (runEffects refs s).visible = s.visible := by
  unfold runEffects; split <;> rfl

lemma runEffects_step (refs : Nat → Bool) (s : TutorialState) :
    (runEffects refs s).step = s.step := by
  unfold runEffects; split <;> rfl

lemma runEffects_showDetails (refs : Nat → Bool) (s : TutorialState) :
    (runEffects refs s).showDetails = s.showDetails := by
  unfold runEffects; split <;> rfl

lemma runEffects_isNewUser (refs : Nat → Bool) (s : TutorialState) :
    (runEffects refs s).isNewUser = s.isNewUser := by
  unfold runEffects; split <;> rfl

/-- C2: for every step index `i`, `next()` with `i + 1 = N` hides the tour
without changing the step index (exactly what Finish does), and with
`i + 1 < N` advances the step index by one; the resulting step index is
never `N`. -/
theorem c2_next_last_is_finish (steps : List Step) (refs : Nat → Bool)
    (s : TutorialState) :
    (clickNext steps refs s).step ≠ steps.length ∧
    (s.step + 1 = steps.length →
      (clickNext steps refs s).visible = false ∧
      (clickNext steps refs s).step = s.step) ∧
    (s.step + 1 < steps.length →
      (clickNext steps refs s).step = s.step + 1 ∧
      (clickNext steps refs s).visible = s.visible) := by
  by_cases hlast : s.step + 1 = steps.length
  · refine ⟨?_, fun _ => ?_, fun hlt => absurd hlast (by omega)⟩
    · simp only [clickNext, if_pos hlast, runEffects_step]
      omega
    · constructor
      · simp [clickNext, if_pos hlast, runEffects_visible]
      · simp [clickNext, if_pos hlast, runEffects_step]
  · refine ⟨?_, fun heq => absurd heq hlast, fun _ => ?_⟩
    · simp only [clickNext, if_neg hlast, runEffects_step]
      omega
    · constructor
      · simp [clickNext, if_neg hlast, runEffects_step]
      · simp [clickNext, if_neg hlast, runEffects_visible]

/-- C2 witness: with the four-step demo catalog, `next()` at the last step
hides the tour and stays at index 3, and `next()` at step 0 advances to 1. -/
theorem c2_next_last_is_finish_witness :
    (3 : Nat) + 1 = demoCatalog.length ∧
    ((clickNext demoCatalog noRefs
        { visible := true, step := 3, showDetails := false, isNewUser := false,
          z := baselineZ }).visible = false ∧
      (clickNext demoCatalog noRefs
        { visible := true, step := 3, showDetails := false, isNewUser := false,
          z := baselineZ }).step = 3) :=
  ⟨by decide,
    (c2_next_last_is_finish demoCatalog noRefs
      { visible := true, step := 3, showDetails := false, isNewUser := false,
        z := baselineZ }).2.1 (by decide)⟩

/-- C3: the validation gate is fail-open — a step whose title matches no
registered rule is valid; a step titled `'Meal Plan Info'` (the only
registered rule) is valid exactly when the external boolean is; and the
Next/Finish control is disabled exactly when the active step is invalid. -/
theorem c3_validation_fail_open (steps : List Step) (i : Nat) (ade : Bool) :
    ((getStep steps i).title ≠ "Meal Plan Info" → isStepComplete steps i ade = true) ∧
    ((getStep steps i).title = "Meal Plan Info" → isStepComplete steps i ade = ade) ∧
    (nextFinishDisabled steps i ade = true ↔ isStepComplete steps i ade = false) := by
  refine ⟨fun h => ?_, fun h => ?_, ?_⟩
  · simp only [isStepComplete, validationRules]
    rw [List.find?_cons_of_neg, List.find?_nil]
    simp only [beq_iff_eq]
    exact fun hh => h hh.symm
  · simp only [isStepComplete, validationRules]
    rw [List.find?_cons_of_pos]
    simp only [beq_iff_eq]
    exact h.symm
  · cases hc : isStepComplete steps i ade <;> simp [nextFinishDisabled, hc]

/-- C3 witness: step 0 of the demo catalog has no rule and is valid; a step
titled `'Meal Plan Info'` is valid iff the external boolean holds. -/
theorem c3_validation_fail_open_witness :
    ((getStep demoCatalog 0).title ≠ "Meal Plan Info" ∧
      isStepComplete demoCatalog 0 false = true) ∧
    ((getStep [{ title := "Meal Plan Info", description := "d", position := "start" }] 0).title
        = "Meal Plan Info" ∧
      isStepComplete [{ title := "Meal Plan Info", description := "d", position := "start" }] 0 false
        = false) :=
  ⟨⟨by decide, (c3_validation_fail_open demoCatalog 0 false).1 (by decide)⟩,
   ⟨by decide,
    (c3_validation_fail_open
      [{ title := "Meal Plan Info", description := "d", position := "start" }] 0 false).2.1
      (by decide)⟩⟩

/-- C4: `previous()` at step 0 leaves the step index and visibility
unchanged; at step `i > 0` it decrements the step index by one and leaves
visibility unchanged. -/
theorem c4_previous_decrements (refs : Nat → Bool) (s : TutorialState) :
    (s.step = 0 →
      (clickPrevious refs s).step = s.step ∧
      (clickPrevious refs s).visible = s.visible) ∧
    (0 < s.step →
      (clickPrevious refs s).step = s.step - 1 ∧
      (clickPrevious refs s).visible = s.visible) := by
  by_cases h0 : s.step = 0
  · refine ⟨fun _ => ?_, fun hlt => absurd h0 (by omega)⟩
    constructor
    · simp [clickPrevious, h0]
    · simp [clickPrevious, h0]
  · refine ⟨fun heq => absurd heq h0, fun _ => ?_⟩
    constructor
    · simp [clickPrevious, h0, runEffects_step]
    · simp [clickPrevious, h0, runEffects_visible]

/-- C4 witness: at step 0 of a visible tour `previous()` is a no-op on the
step index and visibility. -/
theorem c4_previous_decrements_witness :
    (TutorialState.mk true 0 false false baselineZ).step = 0 ∧
    ((clickPrevious noRefs (TutorialState.mk true 0 false false baselineZ)).step
        = (TutorialState.mk true 0 false false baselineZ).step ∧
      (clickPrevious noRefs (TutorialState.mk true 0 false false baselineZ)).visible
        = (TutorialState.mk true 0 false false baselineZ).visible) :=
  ⟨rfl, (c4_previous_decrements noRefs (TutorialState.mk true 0 false false baselineZ)).1 rfl⟩

/-- C9: applying or clearing emphasis at an index whose registry entry is
absent is a silent no-op — the zIndex map (and hence every handle) is left
entirely unchanged, and no failure occurs (both operations are total). -/
theorem c9_absent_handle_noop (refs : Nat → Bool) (i : Nat) (z : Nat → String)
    (h : refs i = false) :
    resetPrevDiv refs i z = z ∧ applyEmphasis refs i z = z := by
  simp [resetPrevDiv, applyEmphasis, h]

/-- C9 witness: with no registered handles, clearing and applying emphasis at
index 0 leave the baseline map unchanged. -/
theorem c9_absent_handle_noop_witness :
    noRefs 0 = false ∧
    (resetPrevDiv noRefs 0 baselineZ = baselineZ ∧
      applyEmphasis noRefs 0 baselineZ = baselineZ) :=
  ⟨rfl, c9_absent_handle_noop noRefs 0 baselineZ rfl⟩

/-- C10: `previous()` at step 0 clears emphasis on step 0's registered
handle (its zIndex becomes the baseline `"0"`) while leaving the step
index, visibility and details toggle unchanged: the handler calls
`resetPrevDiv(step)` before the `step !== 0` check. -/
theorem c10_previous_at_zero_clears (refs : Nat → Bool) (s : TutorialState)
    (h0 : s.step = 0) (hp : refs s.step = true) :
    (clickPrevious refs s).z s.step = "0" ∧
    (clickPrevious refs s).step = s.step ∧
    (clickPrevious refs s).visible = s.visible ∧
    (clickPrevious refs s).showDetails = s.showDetails := by
  have hp0 : refs 0 = true := h0 ▸ hp
  refine ⟨?_, ?_, ?_, ?_⟩
  · simp [clickPrevious, h0, resetPrevDiv, hp0]
  · simp [clickPrevious, h0]
  · simp [clickPrevious, h0]
  · simp [clickPrevious, h0]

/-- C1: reading the never-written key `'isNewUser'` defaults to `true`; on a
mount where the flag reads `true` the tour becomes visible and the flag is
written `false`; on a mount where it reads `false` the tour's visibility is
whatever the host passed in (no auto-show) and the flag stays `false`, so
no later mount ever auto-shows again. -/
theorem c1_auto_activation (refs : Nat → Bool) (visible0 : Bool)
    (store : String → Option Bool) :
    usePersistentStateRead emptyStore "isNewUser" true = true ∧
    (usePersistentStateRead store "isNewUser" true = true →
      (mountTutorial refs visible0 (usePersistentStateRead store "isNewUser" true)).visible
          = true ∧
      (mountTutorial refs visible0 (usePersistentStateRead store "isNewUser" true)).isNewUser
          = false) ∧
    (usePersistentStateRead store "isNewUser" true = false →
      (mountTutorial refs visible0 (usePersistentStateRead store "isNewUser" true)).visible
          = visible0 ∧
      (mountTutorial refs visible0 (usePersistentStateRead store "isNewUser" true)).isNewUser
          = false) := by
  refine ⟨rfl, fun h => ?_, fun h => ?_⟩
  · rw [h]
    constructor
    · simp [mountTutorial, runEffects_visible]
    · simp [mountTutorial, runEffects_isNewUser]
  · rw [h]
    constructor
    · simp [mountTutorial, runEffects_visible]
    · simp [mountTutorial, runEffects_isNewUser]

/-- C1 witness: with an empty store the flag reads `true`, and a first mount
(host `show` prop `false`) auto-shows and consumes the flag. -/
theorem c1_auto_activation_witness :
    usePersistentStateRead emptyStore "isNewUser" true = true ∧
    ((mountTutorial cexRefs false (usePersistentStateRead emptyStore "isNewUser" true)).visible
        = true ∧
      (mountTutorial cexRefs false (usePersistentStateRead emptyStore "isNewUser" true)).isNewUser
        = false) :=
  ⟨rfl, (c1_auto_activation cexRefs false emptyStore).2.1 rfl⟩

lemma foldl_countP_center (l : List Step) (n : Int) :
    l.foldl (fun p c => p + (if c.position == "center" then 1 else 0)) n
      = n + (l.countP (fun c => c.position == "center") : Int) := by
  induction l generalizing n with
  | nil => simp
  | cons a t ih =>
    rw [List.foldl_cons, ih, List.countP_cons]
    cases h : (a.position == "center")
    · simp [h]
    · simp [h]
      ring

/-- C5: for a non-`center` step `i`, the `order` assigned to the inline
tooltip is `1 + i` minus the number of steps before `i` whose position is
`center`; with positions `[center, start, end, start]`, indices 1, 2, 3
receive orders 1, 2, 3. -/
theorem c5_inline_order (steps : List Step) (i : Nat) (hp : Bool)
    (h : (getStep steps i).position ≠ "center") :
    (layoutEffect steps i hp).order
        = some (toString (1 + (i : Int) -
            ((steps.take i).countP (fun c => c.position == "center") : Int))) ∧
    (layoutEffect demoCatalog 1 true).order = some "1" ∧
    (layoutEffect demoCatalog 2 true).order = some "2" ∧
    (layoutEffect demoCatalog 3 false).order = some "3" := by
  refine ⟨?_, by decide, by decide, by decide⟩
  have hb : ((getStep steps i).position != "center") = true := by
    simpa [bne_iff_ne] using h
  simp only [layoutEffect, if_pos hb, tooltipOrder, foldl_countP_center, zero_add]

/-- C5 witness: step 1 of the demo catalog is non-`center` and its assigned
order is the spec's formula evaluated there. -/
theorem c5_inline_order_witness :
    (getStep demoCatalog 1).position ≠ "center" ∧
    (layoutEffect demoCatalog 1 true).order
        = some (toString (1 + (1 : Int) -
            ((demoCatalog.take 1).countP (fun c => c.position == "center") : Int))) :=
  ⟨by decide, (c5_inline_order demoCatalog 1 true (by decide)).1⟩

/-- C6 counterexample: step 1 of the demo catalog has position `'start'` and
its registry handle is present, yet the element scrolled into view is the
tooltip, not the handle — the code only targets the handle when the
position is `'end'` (`div !== null && position === 'end' ? div : tooltip`),
so the claim's `'start'`-with-handle case fails. -/
theorem c6_scroll_counterexample :
    (getStep demoCatalog 1).position = "start" ∧
    (layoutEffect demoCatalog 1 true).scroll.target = ScrollTarget.tooltip ∧
    ScrollTarget.tooltip ≠ ScrollTarget.handle := by
  refine ⟨by decide, by decide, by decide⟩

/-- C6 (amended): for an active step whose position is `'start'` or `'end'`,
the scroll is aligned to the step's position, and the scrolled element is
the registry handle exactly when the handle is present AND the position is
`'end'`; when the position is `'start'` or the handle is absent, the
tooltip itself is scrolled. -/
theorem c6_scroll_target (steps : List Step) (i : Nat) (hp : Bool)
    (h : (getStep steps i).position = "start" ∨ (getStep steps i).position = "end") :
    (layoutEffect steps i hp).scroll.block = (getStep steps i).position ∧
    (hp = true ∧ (getStep steps i).position = "end" →
      (layoutEffect steps i hp).scroll.target = ScrollTarget.handle) ∧
    ((getStep steps i).position = "start" →
      (layoutEffect steps i hp).scroll.target = ScrollTarget.tooltip) ∧
    (hp = false →
      (layoutEffect steps i hp).scroll.target = ScrollTarget.tooltip) := by
  have hc : (getStep steps i).position ≠ "center" := by
    rcases h with h | h <;> simp [h]
  have hb : ((getStep steps i).position != "center") = true := by
    simpa [bne_iff_ne] using hc
  refine ⟨?_, fun he => ?_, fun hs => ?_, fun hf => ?_⟩
  · simp only [layoutEffect, if_pos hb]
  · simp [layoutEffect, if_pos hb, he.1, he.2]
  · simp [layoutEffect, hs]
  · simp only [layoutEffect, if_pos hb]
    simp [hf]

/-- C6 (amended) witness: step 2 of the demo catalog has position `'end'`;
with the handle present it is the handle that is scrolled, aligned `'end'`. -/
theorem c6_scroll_target_witness :
    ((getStep demoCatalog 2).position = "start" ∨ (getStep demoCatalog 2).position = "end") ∧
    (layoutEffect demoCatalog 2 true).scroll.block = (getStep demoCatalog 2).position ∧
    (layoutEffect demoCatalog 2 true).scroll.target = ScrollTarget.handle :=
  ⟨Or.inr (by decide),
   (c6_scroll_target demoCatalog 2 true (Or.inr (by decide))).1,
   (c6_scroll_target demoCatalog 2 true (Or.inr (by decide))).2.1 ⟨rfl, by decide⟩⟩

/-- A visible state at step 0 whose details toggle is expanded. -/
def c7CexState : TutorialState :=
  { visible := true, step := 0, showDetails := true, isNewUser := false, z := baselineZ }

/-- C7 counterexample: from a visible state at step 0 with the details
toggle expanded, `next()` advances to step 1 but leaves `showDetails`
`true` — no handler resets the toggle, so the claimed reset to `false` on
step change does not happen. -/
theorem c7_details_counterexample :
    (clickNext demoCatalog noRefs c7CexState).step = c7CexState.step + 1 ∧
    (clickNext demoCatalog noRefs c7CexState).showDetails ≠ false := by
  constructor <;> decide

/-- C7 (amended): `next()` and `previous()` leave the details-expanded
toggle unchanged — it is never reset when the active step index changes. -/
theorem c7_details_preserved (steps : List Step) (refs : Nat → Bool) (s : TutorialState) :
    (clickNext steps refs s).showDetails = s.showDetails ∧
    (clickPrevious refs s).showDetails = s.showDetails := by
  constructor
  · simp only [clickNext]
    split <;> simp [runEffects_showDetails]
  · simp only [clickPrevious]
    split <;> simp [runEffects_showDetails]

lemma applyEmphasis_inv (refs : Nat → Bool) (i : Nat) (z : Nat → String)
    (h : ∀ j, z j = "50" → refs j = true ∧ j = i) :
    ∀ j, applyEmphasis refs i z j = "50" → refs j = true ∧ j = i := by
  intro j hj
  unfold applyEmphasis at hj
  by_cases hr : refs i = true
  · rw [if_pos hr] at hj
    by_cases hje : j = i
    · exact ⟨hje ▸ hr, hje⟩
    · rw [Function.update_noteq hje] at hj
      exact h j hj
  · rw [if_neg hr] at hj
    exact h j hj

lemma resetPrevDiv_not_elevated (refs : Nat → Bool) (i : Nat) (z : Nat → String)
    (h : ∀ j, z j = "50" → refs j = true ∧ j = i) :
    ∀ j, resetPrevDiv refs i z j ≠ "50" := by
  intro j
  unfold resetPrevDiv
  by_cases hr : refs i = true
  · rw [if_pos hr]
    by_cases hje : j = i
    · subst hje
      rw [Function.update_same]
      decide
    · rw [Function.update_noteq hje]
      intro hz
      exact hje (h j hz).2
  · rw [if_neg hr]
    intro hz
    exact hr ((h j hz).2 ▸ (h j hz).1)

lemma runEffects_zinv (refs : Nat → Bool) (s : TutorialState)
    (h : ∀ j, s.z j = "50" → refs j = true ∧ j = s.step) :
    ∀ j, (runEffects refs s).z j = "50" →
      refs j = true ∧ (runEffects refs s).visible = true ∧ j = (runEffects refs s).step := by
  intro j hj
  rw [runEffects_visible, runEffects_step]
  by_cases hv : s.visible = true
  · have hz : (runEffects refs s).z = applyEmphasis refs s.step s.z := by
      unfold runEffects
      rw [if_pos hv]
    rw [hz] at hj
    have := applyEmphasis_inv refs s.step s.z h j hj
    exact ⟨this.1, hv, this.2⟩
  · exfalso
    have hz : (runEffects refs s).z
        = resetPrevDiv refs s.step (applyEmphasis refs s.step s.z) := by
      unfold runEffects
      rw [if_neg hv]
    rw [hz] at hj
    exact resetPrevDiv_not_elevated refs s.step _
      (applyEmphasis_inv refs s.step s.z h) j hj

lemma mount_zinv (refs : Nat → Bool) (visible0 newUser : Bool) :
    ∀ j, (mountTutorial refs visible0 newUser).z j = "50" →
      refs j = true ∧ (mountTutorial refs visible0 newUser).visible = true ∧
      j = (mountTutorial refs visible0 newUser).step := by
  have h0 : ∀ j, ((fun (_ : Nat) => ("0" : String)) j) = "50" →
      refs j = true ∧ j = (0 : Nat) := by
    intro j hj
    have hcl : ("0" : String) = "50" := hj
    exact absurd hcl (by decide)
  have h1 := runEffects_zinv refs
    { visible := visible0, step := 0, showDetails := false, isNewUser := newUser,
      z := fun _ => "0" } h0
  by_cases hnu : newUser = true
  · have hm : mountTutorial refs visible0 newUser
        = runEffects refs
            { runEffects refs
                { visible := visible0, step := 0, showDetails := false,
                  isNewUser := newUser, z := fun _ => "0" } with
              visible := true, isNewUser := false } := by
      simp [mountTutorial, hnu]
    rw [hm]
    apply runEffects_zinv
    intro j hj
    exact ⟨(h1 j hj).1, (h1 j hj).2.2⟩
  · have hm : mountTutorial refs visible0 newUser
        = runEffects refs
            { visible := visible0, step := 0, showDetails := false,
              isNewUser := newUser, z := fun _ => "0" } := by
      simp [mountTutorial, hnu]
    rw [hm]
    exact h1

lemma clickNext_zinv (steps : List Step) (refs : Nat → Bool) (s : TutorialState)
    (ih : ∀ j, s.z j = "50" → refs j = true ∧ s.visible = true ∧ j = s.step) :
    ∀ j, (clickNext steps refs s).z j = "50" →
      refs j = true ∧ (clickNext steps refs s).visible = true ∧
      j = (clickNext steps refs s).step := by
  have hreset : ∀ j, resetPrevDiv refs s.step s.z j ≠ "50" :=
    resetPrevDiv_not_elevated refs s.step s.z
      (fun j hj => ⟨(ih j hj).1, (ih j hj).2.2⟩)
  by_cases hlast : s.step + 1 = steps.length
  · have hm : clickNext steps refs s
        = runEffects refs { s with z := resetPrevDiv refs s.step s.z, visible := false } := by
      simp [clickNext, hlast]
    rw [hm]
    apply runEffects_zinv
    intro j hj
    exact absurd hj (hreset j)
  · have hm : clickNext steps refs s
        = runEffects refs { s with z := resetPrevDiv refs s.step s.z, step := s.step + 1 } := by
      simp [clickNext, hlast]
    rw [hm]
    apply runEffects_zinv
    intro j hj
    exact absurd hj (hreset j)

lemma clickPrevious_zinv (refs : Nat → Bool) (s : TutorialState)
    (ih : ∀ j, s.z j = "50" → refs j = true ∧ s.visible = true ∧ j = s.step) :
    ∀ j, (clickPrevious refs s).z j = "50" →
      refs j = true ∧ (clickPrevious refs s).visible = true ∧
      j = (clickPrevious refs s).step := by
  have hreset : ∀ j, resetPrevDiv refs s.step s.z j ≠ "50" :=
    resetPrevDiv_not_elevated refs s.step s.z
      (fun j hj => ⟨(ih j hj).1, (ih j hj).2.2⟩)
  by_cases h0 : s.step = 0
  · have hm : clickPrevious refs s = { s with z := resetPrevDiv refs s.step s.z } := by
      simp [clickPrevious, h0]
    rw [hm]
    intro j hj
    exact absurd hj (hreset j)
  · have hm : clickPrevious refs s
        = runEffects refs { s with z := resetPrevDiv refs s.step s.z, step := s.step - 1 } := by
      simp [clickPrevious, h0]
    rw [hm]
    apply runEffects_zinv
    intro j hj
    exact absurd hj (hreset j)

lemma clickClose_zinv (refs : Nat → Bool) (s : TutorialState)
    (ih : ∀ j, s.z j = "50" → refs j = true ∧ s.visible = true ∧ j = s.step) :
    ∀ j, (clickClose refs s).z j = "50" →
      refs j = true ∧ (clickClose refs s).visible = true ∧
      j = (clickClose refs s).step := by
  unfold clickClose
  apply runEffects_zinv
  intro j hj
  exact ⟨(ih j hj).1, (ih j hj).2.2⟩

lemma showTour_zinv (refs : Nat → Bool) (s : TutorialState)
    (ih : ∀ j, s.z j = "50" → refs j = true ∧ s.visible = true ∧ j = s.step) :
    ∀ j, (showTour refs s).z j = "50" →
      refs j = true ∧ (showTour refs s).visible = true ∧
      j = (showTour refs s).step := by
  unfold showTour
  apply runEffects_zinv
  intro j hj
  exact ⟨(ih j hj).1, (ih j hj).2.2⟩

lemma toggleDetails_zinv (s : TutorialState) {refs : Nat → Bool}
    (ih : ∀ j, s.z j = "50" → refs j = true ∧ s.visible = true ∧ j = s.step) :
    ∀ j, (toggleDetails s).z j = "50" →
      refs j = true ∧ (toggleDetails s).visible = true ∧
      j = (toggleDetails s).step := by
  intro j hj
  exact ih j hj

/-- C8 (amended): in every reachable state, any handle carrying the elevated
zIndex `"50"` is a registered handle, the tour is visible, and it is the
current step's handle — hence at most one handle is ever elevated, and when
the current step's registry entry is absent no handle is elevated.  (The
original claim's stronger direction — a present entry for the current step
is always elevated — fails; see the counterexample.) -/
theorem c8_emphasis_invariant (steps : List Step) (refs : Nat → Bool)
    (s : TutorialState) (h : Reachable steps refs s) :
    ∀ j, s.z j = "50" → refs j = true ∧ s.visible = true ∧ j = s.step := by
  induction h with
  | mounted visible0 newUser => exact mount_zinv refs visible0 newUser
  | dispatch e hr ih =>
    cases e with
    | next => exact clickNext_zinv _ _ _ ih
    | previous => exact clickPrevious_zinv _ _ ih
    | close => exact clickClose_zinv _ _ ih
    | reopen => exact showTour_zinv _ _ ih
    | toggle => exact toggleDetails_zinv _ ih

/-- C8 (amended) witness: right after a first mount the tour is visible at
step 0 and the registered handle 0 is elevated, so the invariant applies. -/
theorem c8_emphasis_invariant_witness :
    cexRefs 0 = true ∧ (mountTutorial cexRefs false true).visible = true ∧
      (0 : Nat) = (mountTutorial cexRefs false true).step :=
  c8_emphasis_invariant demoCatalog cexRefs (mountTutorial cexRefs false true)
    (Reachable.mounted false true) 0 (by decide)

/-- The state reached by mounting as a first-run user (auto-show at step 0,
handle 0 elevated) and then pressing Previous at step 0. -/
def c8CexState : TutorialState :=
  clickPrevious cexRefs (mountTutorial cexRefs false true)

/-- C8 counterexample: `c8CexState` is reachable, visible at step 0 with the
registry entry for step 0 present, yet that handle is NOT elevated —
`previous()` at step 0 cleared the emphasis without re-applying it (no
state changed, so the emphasis effect did not re-run).  This refutes the
claim's "when the registry entry for i is present that entry is the one
elevated". -/
theorem c8_counterexample :
    Reachable demoCatalog cexRefs c8CexState ∧
    c8CexState.visible = true ∧
    cexRefs c8CexState.step = true ∧
    c8CexState.z c8CexState.step ≠ "50" := by
  refine ⟨?_, by decide, by decide, by decide⟩
  have hstate : c8CexState
      = stepEvent demoCatalog cexRefs TourEvent.previous (mountTutorial cexRefs false true) :=
    rfl
  rw [hstate]
  exact Reachable.dispatch TourEvent.previous (Reachable.mounted false true)

/-- C10 witness: after a first mount (visible at step 0, handle 0 present and
elevated), pressing Previous resets handle 0's zIndex to the baseline while
step, visibility and the details toggle are unchanged. -/
theorem c10_previous_at_zero_clears_witness :
    (mountTutorial cexRefs false true).step = 0 ∧
    cexRefs (mountTutorial cexRefs false true).step = true ∧
    ((clickPrevious cexRefs (mountTutorial cexRefs false true)).z
        (mountTutorial cexRefs false true).step = "0" ∧
      (clickPrevious cexRefs (mountTutorial cexRefs false true)).step
        = (mountTutorial cexRefs false true).step ∧
      (clickPrevious cexRefs (mountTutorial cexRefs false true)).visible
        = (mountTutorial cexRefs false true).visible ∧
      (clickPrevious cexRefs (mountTutorial cexRefs false true)).showDetails
        = (mountTutorial cexRefs false true).showDetails) :=
  ⟨by decide, by decide,
    c10_previous_at_zero_clears cexRefs (mountTutorial cexRefs false true)
      (by decide) (by decide)⟩
